import Mathlib

/-!
Verification of the prompt → mask segmentation pipeline of the
DetectSegPlatform backend (`work_flow/__base__/edge_sam.py`,
`work_flow/__base__/sam2.py`, `work_flow/flows/sam_hq.py`).

The Python code is shallowly embedded:
* real (Python float) arithmetic is modelled exactly by `ℚ`;
* numpy arrays of mask logits are modelled by `List (List ℚ)` (one 2-D
  mask) and `List Mask` (a batch along the leading axis);
* a Python exception is modelled by the `Except` monad; `PyError`
  distinguishes the exceptions the code can raise;
* numpy's `0/0 → nan` (no exception) is modelled by `Option ℚ` with
  `none` standing for NaN.
-/

/-- A Python exception kind.  `invalidInput` is the spec's abstract error
kind (§7); it is never produced by the embedded code and exists only so
that statements about it can be written. -/
inductive PyError
  | zeroDivision
  | invalidInput
  | valueError (msg : String)
deriving DecidableEq

/-- A single 2-D mask of raw logits (`np.ndarray` over the last two axes). -/
abbrev Mask : Type := List (List ℚ)

/-- `masks > (mask_threshold + threshold_offset)` from
`EdgeSAMONNX.calculate_stability_score` (edge_sam.py line 117). -/
def high_threshold_mask (m : Mask) (mask_threshold threshold_offset : ℚ) :
    List (List Bool) :=
  m.map (fun row => row.map (fun p => decide (mask_threshold + threshold_offset < p)))

/-- `masks > (mask_threshold - threshold_offset)` (edge_sam.py line 118). -/
def low_threshold_mask (m : Mask) (mask_threshold threshold_offset : ℚ) :
    List (List Bool) :=
  m.map (fun row => row.map (fun p => decide (mask_threshold - threshold_offset < p)))

/-- Elementwise `&` of two boolean grids (numpy broadcasting on equal shapes). -/
def grid_and (a b : List (List Bool)) : List (List Bool) :=
  (a.zip b).map (fun rc => (rc.1.zip rc.2).map (fun pq => pq.1 && pq.2))

/-- Elementwise `|` of two boolean grids. -/
def grid_or (a b : List (List Bool)) : List (List Bool) :=
  (a.zip b).map (fun rc => (rc.1.zip rc.2).map (fun pq => pq.1 || pq.2))

/-- `np.sum(·, axis=(-1, -2))`: the number of `true` cells of a boolean grid. -/
def grid_sum (g : List (List Bool)) : ℕ :=
  (g.map (fun row => row.countP id)).sum

/-- `intersections` of `calculate_stability_score` for one mask of the
batch (edge_sam.py lines 120-124). -/
def intersections (m : Mask) (mask_threshold threshold_offset : ℚ) : ℕ :=
  grid_sum (grid_and (high_threshold_mask m mask_threshold threshold_offset)
                     (low_threshold_mask m mask_threshold threshold_offset))

/-- `unions` of `calculate_stability_score` for one mask of the batch
(edge_sam.py lines 125-129). -/
def unions (m : Mask) (mask_threshold threshold_offset : ℚ) : ℕ :=
  grid_sum (grid_or (high_threshold_mask m mask_threshold threshold_offset)
                    (low_threshold_mask m mask_threshold threshold_offset))

/-- `intersections / unions` for one mask.  numpy true-division of the two
`int32` counts: when `unions = 0` the code computes `0/0`, which numpy
evaluates to NaN (modelled `none`) without raising. -/
def stability_score_mask (m : Mask) (mask_threshold threshold_offset : ℚ) :
    Option ℚ :=
  if unions m mask_threshold threshold_offset = 0 then none
  else some ((intersections m mask_threshold threshold_offset : ℚ) /
             (unions m mask_threshold threshold_offset : ℚ))

/-- `EdgeSAMONNX.calculate_stability_score` (edge_sam.py lines 108-130) on a
batch of masks; the reduction `axis=(-1,-2)` leaves one score per mask. -/
def calculate_stability_score (masks : List Mask)
    (mask_threshold threshold_offset : ℚ) : List (Option ℚ) :=
  masks.map (fun m => stability_score_mask m mask_threshold threshold_offset)

/-- The stability score in the words of the spec (§4.5): per-mask score =
cardinality of the pixel set `{pixels > threshold+offset} ∩ {pixels >
threshold-offset}` divided by the cardinality of the union of the same two
sets; an empty union is an undefined (NaN) score. -/
def spec_stability_score (m : Mask) (threshold offset : ℚ) : Option ℚ :=
  let pixels := m.flatten
  let inter :=
    (pixels.filter (fun p => decide (threshold + offset < p) &&
                             decide (threshold - offset < p))).length
  let uni :=
    (pixels.filter (fun p => decide (threshold + offset < p) ||
                             decide (threshold - offset < p))).length
  if uni = 0 then none else some ((inter : ℚ) / (uni : ℚ))

/-- `EdgeSAMONNX.get_preprocess_shape` (edge_sam.py lines 35-46):
`scale = long_side_length / max(oldh, oldw)`, each new dimension is
`int(x + 0.5)` (truncation of a non-negative value, i.e. the floor). -/
def get_preprocess_shape (oldh oldw long_side_length : ℕ) : ℕ × ℕ :=
  let scale : ℚ := (long_side_length : ℚ) / ((max oldh oldw : ℕ) : ℚ)
  let newh : ℚ := (oldh : ℚ) * scale
  let neww : ℚ := (oldw : ℚ) * scale
  ((⌊newh + 1/2⌋).toNat, (⌊neww + 1/2⌋).toNat)

/-- A prompt mark (§6): `{type: "point", data: [x,y], label}` or
`{type: "rectangle", data: [x1,y1,x2,y2]}`. -/
inductive Mark
  | point (data : ℚ × ℚ) (label : ℚ)
  | rectangle (x1 y1 x2 y2 : ℚ)
deriving DecidableEq

/-- `EdgeSAMONNX.get_input_points` (edge_sam.py lines 88-106): the loop
appends, in mark order, the point data and label for a point mark, and the
two corners with labels 2 and 3 for a rectangle mark. -/
def get_input_points : List Mark → List (ℚ × ℚ) × List ℚ
  | [] => ([], [])
  | Mark.point data label :: rest =>
    let r := get_input_points rest
    (data :: r.1, label :: r.2)
  | Mark.rectangle x1 y1 x2 y2 :: rest =>
    let r := get_input_points rest
    ((x1, y1) :: (x2, y2) :: r.1, (2 : ℚ) :: (3 : ℚ) :: r.2)

/-- The rows one mark contributes, in the words of the spec (§4.2): a point
contributes its (coord, label) pair verbatim, a rectangle contributes
(top_left, 2) then (bottom_right, 3). -/
def mark_rows : Mark → List ((ℚ × ℚ) × ℚ)
  | Mark.point data label => [(data, label)]
  | Mark.rectangle x1 y1 x2 y2 => [((x1, y1), 2), ((x2, y2), 3)]

/-- `EdgeSAMONNX.apply_coords` (edge_sam.py lines 132-146) with the Python
division-by-zero behaviour made explicit: `get_preprocess_shape` divides by
`max(old_h, old_w)`, then `coords[..., 0]` is scaled by `new_w / old_w` and
`coords[..., 1]` by `new_h / old_h`; each of these Python divisions raises
`ZeroDivisionError` when its denominator is zero. -/
def apply_coords (target_length : ℕ) (coords : List (ℚ × ℚ))
    (original_size : ℕ × ℕ) : Except PyError (List (ℚ × ℚ)) :=
  let old_h := original_size.1
  let old_w := original_size.2
  if max old_h old_w = 0 then .error .zeroDivision
  else
    let nsize := get_preprocess_shape old_h old_w target_length
    if old_w = 0 then .error .zeroDivision
    else if old_h = 0 then .error .zeroDivision
    else .ok (coords.map (fun c =>
      (c.1 * ((nsize.2 : ℚ) / (old_w : ℚ)), c.2 * ((nsize.1 : ℚ) / (old_h : ℚ)))))

/-- A 2-D `np.ndarray` of logits with an explicit shape; only the values at
indices `i < h`, `j < w` are meaningful. -/
structure Grid where
  h : ℕ
  w : ℕ
  data : ℕ → ℕ → ℚ

/-- A boolean mask (`masks > 0.0`) with an explicit shape. -/
structure BoolMask where
  h : ℕ
  w : ℕ
  data : ℕ → ℕ → Bool

/-- `cv2.resize(g, dsize)` modelled at its interface (OpenCV is an external
collaborator): the output has exactly the requested size, `dsize` given as
`(width, height)` as in OpenCV; interpolation is abstracted as index-space
sampling of the input. -/
def cv2_resize (g : Grid) (dsize : ℕ × ℕ) : Grid :=
  { h := dsize.2
    w := dsize.1
    data := fun i j => g.data (i * g.h / dsize.2) (j * g.w / dsize.1) }

/-- Python slicing `mask[..., :rows, :cols]` (edge_sam.py line 180): keeps
the leading `min (h, rows)` rows and `min (w, cols)` columns. -/
def crop_mask (g : Grid) (rows cols : ℕ) : Grid :=
  { h := min g.h rows, w := min g.w cols, data := g.data }

/-- `EdgeSAMONNX.postprocess_masks` (edge_sam.py lines 154-186):
(1) resize to the fixed square `target_length × target_length`;
(2) crop to `input_size` rows/columns;
(3) resize to `original_size[::-1]` given to `cv2.resize` as `(W, H)`. -/
def postprocess_masks (target_length : ℕ) (mask : Grid)
    (input_size original_size : ℕ × ℕ) : Grid :=
  let img_size := target_length
  let m1 := cv2_resize mask (img_size, img_size)
  let m2 := crop_mask m1 input_size.1 input_size.2
  cv2_resize m2 (original_size.2, original_size.1)

/-- `masks > 0.0` (edge_sam.py line 229). -/
def threshold_mask (g : Grid) : BoolMask :=
  { h := g.h, w := g.w, data := fun i j => decide (0 < g.data i j) }

/-- The tail of `EdgeSAMONNX.run_decoder` (edge_sam.py lines 225-230) for
one selected decoder mask: `input_size = get_preprocess_shape(*original_size,
target_length)`, then `postprocess_masks`, then threshold at 0.0. -/
def run_decoder_output (target_length : ℕ) (decoder_mask : Grid)
    (original_size : ℕ × ℕ) : BoolMask :=
  let input_size :=
    get_preprocess_shape original_size.1 original_size.2 target_length
  threshold_mask (postprocess_masks target_length decoder_mask input_size original_size)

/-- The prompt guard at the head of `EdgeSAMONNX.run_decoder` (edge_sam.py
lines 191-194): it raises `ValueError` exactly when `point_coords is None`
or `point_labels is None` (`None` modelled by `Option.none`); any non-`None`
arrays, the empty ones included, pass the guard. -/
def run_decoder_validate (point_coords : Option (List (ℚ × ℚ)))
    (point_labels : Option (List ℚ)) :
    Except PyError (List (ℚ × ℚ) × List ℚ) :=
  match point_coords, point_labels with
  | some cs, some ls => .ok (cs, ls)
  | _, _ =>
    .error (.valueError "Unable to segment, please input at least one box or point.")

/-- Modelled from the spec: the `LRUCache` class lives in the
`work_flow/flows` package `__init__`, which is not under `src/`; this
definition follows spec §4.7 / §3 "Cache Entry".  Entries are kept
most-recently-used first; `capacity` is fixed at construction. -/
structure LRUCache (K α : Type) where
  capacity : ℕ
  entries : List (K × α)
deriving DecidableEq

/-- Modelled from the spec (§4.7): `get(key)` returns the cached value and
marks it most-recently-used, or returns none; a miss does not change the
cache. -/
def LRUCache.get {K α : Type} [DecidableEq K] (c : LRUCache K α) (k : K) :
    Option α × LRUCache K α :=
  match c.entries.find? (fun e => decide (e.1 = k)) with
  | none => (none, c)
  | some e =>
    (some e.2,
     { capacity := c.capacity
       entries := e :: c.entries.filter (fun e' => !decide (e'.1 = k)) })

/-- Modelled from the spec (§4.7): `put(key, value)` inserts or overwrites,
marks the key most-recently-used, and evicts from the least-recently-used
end when the size exceeds the capacity. -/
def LRUCache.put {K α : Type} [DecidableEq K] (c : LRUCache K α) (k : K)
    (v : α) : LRUCache K α :=
  { capacity := c.capacity
    entries := ((k, v) :: c.entries.filter (fun e => !decide (e.1 = k))).take c.capacity }

/-- Modelled from the spec (§4.7): `contains(key)` is an existence check
that does not affect recency (the code calls it `find`). -/
def LRUCache.find {K α : Type} [DecidableEq K] (c : LRUCache K α) (k : K) :
    Bool :=
  c.entries.any (fun e => decide (e.1 = k))

/-- `AutoLabelingResult(shapes, replace)` as `SAM_HQ.predict_shapes` builds
it (sam_hq.py lines 238, 248, 255, 266, 268). -/
structure AutoLabelingResult (S : Type) where
  shapes : List S
  replace : Bool
deriving DecidableEq

/-- `SAM_HQ.predict_shapes` (sam_hq.py lines 233-269).  The opaque
collaborators are parameters: `encode` (`self.model.encode`) and `decode`
(`self.model.predict_masks`) may raise (`Except.error`); `post` folds the
mask squeezing of lines 257-260 and `self.post_process` into one total
function.  The `try/except` catches every collaborator error and returns
`AutoLabelingResult([], replace=False)`; the second `stop_inference` check
of line 254 runs in both the cache-hit and the freshly-encoded branch. -/
def predict_shapes {K Img Emb M S E : Type} [DecidableEq K]
    (encode : Img → Except E Emb) (decode : Emb → List Mark → Except E M)
    (post : M → List S) (stop_inference : Bool) (marks : List Mark)
    (cache : LRUCache K Emb) (cv_image : Option Img) (filename : K) :
    AutoLabelingResult S × LRUCache K Emb :=
  match cv_image with
  | none => (⟨[], false⟩, cache)
  | some img =>
    if marks.isEmpty then (⟨[], false⟩, cache)
    else
      match cache.get filename with
      | (some emb, cache') =>
        if stop_inference then (⟨[], false⟩, cache')
        else
          match decode emb marks with
          | .error _ => (⟨[], false⟩, cache')
          | .ok m => (⟨post m, false⟩, cache')
      | (none, cache') =>
        if stop_inference then (⟨[], false⟩, cache')
        else
          match encode img with
          | .error _ => (⟨[], false⟩, cache')
          | .ok emb =>
            let cache'' := cache'.put filename emb
            if stop_inference then (⟨[], false⟩, cache'')
            else
              match decode emb marks with
              | .error _ => (⟨[], false⟩, cache'')
              | .ok m => (⟨post m, false⟩, cache'')

/-- The loop body of `SAM_HQ.preload_worker` (sam_hq.py lines 281-293) over
the truncated file list.  Besides the final cache the run records, in
order, the filenames whose image load was performed and the filenames that
were encoded (and therefore inserted).  Per the code: a cached file is
skipped, the image load happens before the single `stop_inference` check,
and the check sits between the load and the encode; `return` aborts the
whole loop. -/
def preload_worker_go {K Img Emb : Type} [DecidableEq K]
    (load : K → Option Img) (encode : Img → Emb) (stop_inference : Bool) :
    List K → LRUCache K Emb → List K → List K →
    LRUCache K Emb × List K × List K
  | [], cache, loaded, encoded => (cache, loaded, encoded)
  | f :: rest, cache, loaded, encoded =>
    if cache.find f then
      preload_worker_go load encode stop_inference rest cache loaded encoded
    else
      match load f with
      | none =>
        preload_worker_go load encode stop_inference rest cache (loaded ++ [f]) encoded
      | some img =>
        if stop_inference then (cache, loaded ++ [f], encoded)
        else
          preload_worker_go load encode stop_inference rest
            (cache.put f (encode img)) (loaded ++ [f]) (encoded ++ [f])

/-- `SAM_HQ.preload_worker` (sam_hq.py lines 276-293):
`files = files[:preloaded_size]`, then the loop above starting from the
current cache with empty event logs. -/
def preload_worker {K Img Emb : Type} [DecidableEq K]
    (load : K → Option Img) (encode : Img → Emb) (stop_inference : Bool)
    (preloaded_size : ℕ) (cache : LRUCache K Emb) (files : List K) :
    LRUCache K Emb × List K × List K :=
  preload_worker_go load encode stop_inference (files.take preloaded_size) cache [] []

/-- C2: for positive inputs the preprocessing shape function scales the
longer side exactly to the target long side (`max new_h new_w =
long_side_length`), and preserves the aspect ratio within rounding error:
`|new_h * oldw - new_w * oldh| * 2 ≤ oldh + oldw` (each dimension being off
from the exact scaling by at most 1/2). -/
theorem get_preprocess_shape_correct :
    ∀ (oldh oldw long_side_length : ℕ),
      0 < oldh → 0 < oldw → 0 < long_side_length →
      max (get_preprocess_shape oldh oldw long_side_length).1
          (get_preprocess_shape oldh oldw long_side_length).2 = long_side_length ∧
      (((get_preprocess_shape oldh oldw long_side_length).1 : ℤ) * oldw -
       ((get_preprocess_shape oldh oldw long_side_length).2 : ℤ) * oldh).natAbs * 2
        ≤ oldh + oldw := by
  intro h w L hh hw hL
  have hm : 0 < max h w := lt_of_lt_of_le hh (le_max_left h w)
  have hm0 : ((max h w : ℕ) : ℚ) ≠ 0 := Nat.cast_ne_zero.mpr (Nat.pos_iff_ne_zero.mp hm)
  simp only [get_preprocess_shape]
  set q : ℚ := (L : ℚ) / ((max h w : ℕ) : ℚ) with hq
  set x : ℚ := (h : ℚ) * q with hxdef
  set y : ℚ := (w : ℚ) * q with hydef
  have hq0 : (0 : ℚ) ≤ q := by
    rw [hq]; positivity
  have hx0 : (0 : ℚ) ≤ x := by rw [hxdef]; positivity
  have hy0 : (0 : ℚ) ≤ y := by rw [hydef]; positivity
  have hnh0 : 0 ≤ ⌊x + 1/2⌋ := Int.le_floor.2 (by push_cast; linarith)
  have hnw0 : 0 ≤ ⌊y + 1/2⌋ := Int.le_floor.2 (by push_cast; linarith)
  have b1 : ((⌊x + 1/2⌋ : ℤ) : ℚ) ≤ x + 1/2 := Int.floor_le _
  have b2 : x - 1/2 < ((⌊x + 1/2⌋ : ℤ) : ℚ) := by
    have := Int.lt_floor_add_one (x + 1/2); linarith
  have b3 : ((⌊y + 1/2⌋ : ℤ) : ℚ) ≤ y + 1/2 := Int.floor_le _
  have b4 : y - 1/2 < ((⌊y + 1/2⌋ : ℤ) : ℚ) := by
    have := Int.lt_floor_add_one (y + 1/2); linarith
  constructor
  · rcases le_total w h with hwh | hhw
    · have hmx : max h w = h := max_eq_left hwh
      have hxL : x = (L : ℚ) := by
        rw [hxdef, hq, hmx]
        field_simp
      have hfl : ⌊x + 1/2⌋ = (L : ℤ) := by
        rw [hxL, Int.floor_eq_iff]
        push_cast
        constructor
        · linarith
        · linarith
      have hyx : y ≤ x := by
        rw [hxdef, hydef]
        exact mul_le_mul_of_nonneg_right (by exact_mod_cast hwh) hq0
      have hnwle : ⌊y + 1/2⌋ ≤ ⌊x + 1/2⌋ := Int.floor_mono (by linarith)
      rw [hfl] at hnwle ⊢
      rw [Int.toNat_natCast]
      exact max_eq_left (by omega)
    · have hmx : max h w = w := max_eq_right hhw
      have hyL : y = (L : ℚ) := by
        rw [hydef, hq, hmx]
        field_simp
      have hfl : ⌊y + 1/2⌋ = (L : ℤ) := by
        rw [hyL, Int.floor_eq_iff]
        push_cast
        constructor
        · linarith
        · linarith
      have hxy : x ≤ y := by
        rw [hxdef, hydef]
        exact mul_le_mul_of_nonneg_right (by exact_mod_cast hhw) hq0
      have hnhle : ⌊x + 1/2⌋ ≤ ⌊y + 1/2⌋ := Int.floor_mono (by linarith)
      rw [hfl] at hnhle ⊢
      rw [Int.toNat_natCast]
      exact max_eq_right (by omega)
  · have hxyw : x * (w : ℚ) = y * (h : ℚ) := by rw [hxdef, hydef]; ring
    have hW0 : (0 : ℚ) ≤ (w : ℚ) := by positivity
    have hH0 : (0 : ℚ) ≤ (h : ℚ) := by positivity
    have u1 : ((⌊x + 1/2⌋ : ℤ) : ℚ) * w ≤ (x + 1/2) * w :=
      mul_le_mul_of_nonneg_right b1 hW0
    have u2 : (x - 1/2) * w ≤ ((⌊x + 1/2⌋ : ℤ) : ℚ) * w :=
      mul_le_mul_of_nonneg_right (le_of_lt b2) hW0
    have v1 : ((⌊y + 1/2⌋ : ℤ) : ℚ) * h ≤ (y + 1/2) * h :=
      mul_le_mul_of_nonneg_right b3 hH0
    have v2 : (y - 1/2) * h ≤ ((⌊y + 1/2⌋ : ℤ) : ℚ) * h :=
      mul_le_mul_of_nonneg_right (le_of_lt b4) hH0
    have habs : |((⌊x + 1/2⌋ : ℤ) : ℚ) * w - ((⌊y + 1/2⌋ : ℤ) : ℚ) * h| * 2
        ≤ (h : ℚ) + w := by
      have hb : |((⌊x + 1/2⌋ : ℤ) : ℚ) * w - ((⌊y + 1/2⌋ : ℤ) : ℚ) * h|
          ≤ ((h : ℚ) + w) / 2 := by
        rw [abs_le]
        constructor
        · nlinarith [u1, u2, v1, v2, hxyw]
        · nlinarith [u1, u2, v1, v2, hxyw]
      linarith
    rw [Int.toNat_of_nonneg hnh0, Int.toNat_of_nonneg hnw0]
    have hcast : ((((⌊x + 1/2⌋ * w - ⌊y + 1/2⌋ * h : ℤ)).natAbs * 2 : ℕ) : ℚ)
        ≤ ((h + w : ℕ) : ℚ) := by
      push_cast [Int.cast_natAbs]
      linarith [habs]
    exact_mod_cast hcast

/-- Witness for C2 at a 100×200 image scaled to long side 1024. -/
theorem get_preprocess_shape_correct_witness :
    0 < 100 ∧ 0 < 200 ∧ 0 < 1024 ∧
    (max (get_preprocess_shape 100 200 1024).1
         (get_preprocess_shape 100 200 1024).2 = 1024 ∧
     (((get_preprocess_shape 100 200 1024).1 : ℤ) * 200 -
      ((get_preprocess_shape 100 200 1024).2 : ℤ) * 100).natAbs * 2 ≤ 100 + 200) :=
  ⟨by decide, by decide, by decide,
   get_preprocess_shape_correct 100 200 1024 (by decide) (by decide) (by decide)⟩

/-- C3: the prompt normalizer emits, in input order, each point mark's
(coord, label) pair verbatim and, for each rectangle mark, exactly the two
consecutive rows (top-left, label 2) then (bottom-right, label 3); in
particular `Rectangle{data=[10,20,110,220]}` yields exactly the rows
`[10,20]` with label 2 and `[110,220]` with label 3. -/
theorem get_input_points_correct :
    ∀ prompt : List Mark,
      (get_input_points prompt).1 = ((prompt.map mark_rows).flatten).map Prod.fst ∧
      (get_input_points prompt).2 = ((prompt.map mark_rows).flatten).map Prod.snd ∧
      get_input_points [Mark.rectangle 10 20 110 220] =
        ([((10 : ℚ), (20 : ℚ)), (110, 220)], [(2 : ℚ), 3]) := by
  intro prompt
  refine ⟨?_, ?_, rfl⟩ <;>
    induction prompt with
    | nil => rfl
    | cons mk rest ih => cases mk <;> simp [get_input_points, mark_rows, ih]

/-- C4: the single-stage post-processing pipeline (resize to the square
working resolution, crop to `input_size`, resize to `original_size`,
threshold at 0.0) turns any decoder mask into a boolean mask of shape
exactly `H × W` for an `H × W` image. -/
theorem run_decoder_output_shape :
    ∀ (target_length : ℕ) (mask : Grid) (H W : ℕ),
      0 < target_length → 0 < H → 0 < W →
      (run_decoder_output target_length mask (H, W)).h = H ∧
      (run_decoder_output target_length mask (H, W)).w = W := by
  intro tl mask H W _ _ _
  exact ⟨rfl, rfl⟩

/-- Witness for C4 at the spec's end-to-end example: a 100×200 image. -/
theorem run_decoder_output_shape_witness :
    0 < 1024 ∧ 0 < 100 ∧ 0 < 200 ∧
    ((run_decoder_output 1024 ⟨1, 1, fun _ _ => 0⟩ (100, 200)).h = 100 ∧
     (run_decoder_output 1024 ⟨1, 1, fun _ _ => 0⟩ (100, 200)).w = 200) :=
  ⟨by decide, by decide, by decide,
   run_decoder_output_shape 1024 ⟨1, 1, fun _ _ => 0⟩ 100 200
     (by decide) (by decide) (by decide)⟩

/-- C7 counterexample: an empty mark sequence does not trigger the
`run_decoder` prompt guard — `get_input_points []` yields empty arrays,
not `None`, so the guard passes — and at the pipeline level
`predict_shapes` with no marks returns the plain empty result instead of
reporting an `InvalidPrompt` error. -/
theorem run_decoder_empty_prompt_passes_guard :
    run_decoder_validate (some (get_input_points []).1)
        (some (get_input_points []).2) = .ok ([], []) ∧
    @predict_shapes ℕ Unit ℕ Unit Unit Unit _
        (fun _ => .ok 0) (fun _ _ => .ok ()) (fun _ => [()])
        false [] ⟨10, []⟩ (some ()) 0 = (⟨[], false⟩, ⟨10, []⟩) :=
  ⟨rfl, rfl⟩

/-- C7 (amended): the prompt guard of `run_decoder` raises exactly when
`point_coords` or `point_labels` is `None`; an empty (but present) mark
sequence passes the guard, and `predict_shapes` answers an empty mark list
with the empty result and an untouched cache, reporting no error. -/
theorem run_decoder_guard_none_only :
    (∀ (cs : Option (List (ℚ × ℚ))) (ls : Option (List ℚ)),
      (∃ e, run_decoder_validate cs ls = .error e) ↔ cs = none ∨ ls = none) ∧
    (∀ (K Img Emb M S E : Type) (inst : DecidableEq K)
       (encode : Img → Except E Emb) (decode : Emb → List Mark → Except E M)
       (post : M → List S) (stop : Bool) (cache : LRUCache K Emb)
       (img : Option Img) (filename : K),
       predict_shapes encode decode post stop [] cache img filename
         = (⟨[], false⟩, cache)) := by
  constructor
  · intro cs ls
    cases cs <;> cases ls <;> simp [run_decoder_validate]
  · intro K Img Emb M S E inst encode decode post stop cache img filename
    cases img <;> rfl

/-- C8 counterexample: a zero-area original size makes `apply_coords` hit a
Python division by zero (`ZeroDivisionError`), not the spec's dedicated
`InvalidInput` error. -/
theorem apply_coords_zero_size_zero_division :
    apply_coords 1024 [((1 : ℚ), 2)] (0, 5) = .error .zeroDivision ∧
    (Except.error PyError.zeroDivision : Except PyError (List (ℚ × ℚ)))
      ≠ .error .invalidInput := by
  refine ⟨rfl, ?_⟩
  intro h
  simp at h

/-- C8 (amended): for every input with a zero original height or width, the
coordinate transformer performs an unguarded division and fails with a
`ZeroDivisionError` (there is no `InvalidInput` guard). -/
theorem apply_coords_zero_size_error :
    ∀ (target_length : ℕ) (coords : List (ℚ × ℚ)) (oh ow : ℕ),
      oh = 0 ∨ ow = 0 →
      apply_coords target_length coords (oh, ow) = .error .zeroDivision := by
  intro tl coords oh ow h
  rcases h with h | h
  · subst h
    by_cases how : ow = 0
    · subst how; rfl
    · simp [apply_coords, Nat.zero_max, how]
  · subst h
    by_cases hoh : oh = 0
    · subst hoh; rfl
    · simp [apply_coords, Nat.max_zero, hoh]

/-- Witness for C8 (amended) at original size (0, 5). -/
theorem apply_coords_zero_size_error_witness :
    ((0 : ℕ) = 0 ∨ (5 : ℕ) = 0) ∧
    apply_coords 1024 [((1 : ℚ), 2)] (0, 5) = .error .zeroDivision :=
  ⟨Or.inl rfl, apply_coords_zero_size_error 1024 [((1 : ℚ), 2)] 0 5 (Or.inl rfl)⟩

/-- With the stop flag raised the prefetch loop never encodes and never
touches the cache, whichever way each iteration goes. -/
theorem preload_worker_go_stop {K Img Emb : Type} [DecidableEq K]
    (load : K → Option Img) (encode : Img → Emb) :
    ∀ (files : List K) (cache : LRUCache K Emb) (loaded encoded : List K),
      (preload_worker_go load encode true files cache loaded encoded).1 = cache ∧
      (preload_worker_go load encode true files cache loaded encoded).2.2 = encoded := by
  intro files
  induction files with
  | nil => intro cache loaded encoded; exact ⟨rfl, rfl⟩
  | cons f rest ih =>
    intro cache loaded encoded
    by_cases hf : cache.find f
    · simpa [preload_worker_go, hf] using ih cache loaded encoded
    · cases hl : load f
      · simpa [preload_worker_go, hf, hl] using ih cache (loaded ++ [f]) encoded
      · simp [preload_worker_go, hf, hl]

/-- C6 (amended): the worker checks the stop flag once per uncached,
successfully loaded file — after the image load and before the encode —
so a stop flag set before the run yields zero encodes and zero cache
insertions (the cache comes back exactly unchanged), though images may
still be loaded. -/
theorem preload_worker_stopped_no_insertions :
    ∀ (K Img Emb : Type) (inst : DecidableEq K)
      (load : K → Option Img) (encode : Img → Emb) (preloaded_size : ℕ)
      (cache : LRUCache K Emb) (files : List K),
      (preload_worker load encode true preloaded_size cache files).1 = cache ∧
      (preload_worker load encode true preloaded_size cache files).2.2 = [] := by
  intro K Img Emb inst load encode n cache files
  exact preload_worker_go_stop load encode (files.take n) cache [] []

/-- C6 counterexample: the code does not check the stop flag before the
image load — with the flag set before the run over one uncached file, the
run still loads that file (the loaded-files log is `[0]`, not `[]`),
contradicting "checks the stop flag before each image load and aborts
promptly". -/
theorem preload_worker_loads_despite_stop :
    @preload_worker ℕ Unit ℕ _
        (fun _ => some ()) (fun _ => 7) true 7 ⟨10, []⟩ [0]
      = (⟨10, []⟩, [0], []) ∧ ([0] : List ℕ) ≠ [] :=
  ⟨rfl, by simp⟩

/-- A cache miss leaves the cache exactly as it was. -/
theorem LRUCache.get_miss {K α : Type} [DecidableEq K] (c : LRUCache K α)
    (k : K) (h : (c.get k).1 = none) : c.get k = (none, c) := by
  unfold LRUCache.get at h ⊢
  cases hf : c.entries.find? (fun e => decide (e.1 = k)) with
  | none => rfl
  | some e => rw [hf] at h; simp at h

/-- C5 counterexample: a request whose decode fails after a successful
fresh encode still inserts the freshly encoded embedding, so the cache is
not "left exactly as it was before the request" for every request in which
the encode or decode collaborator raises. -/
theorem predict_shapes_decode_failure_cache_changed :
    @predict_shapes ℕ Unit ℕ Unit Unit Unit _
        (fun _ => .ok 7) (fun _ _ => (.error () : Except Unit Unit))
        (fun _ => []) false [Mark.point (0, 0) 1] ⟨10, []⟩ (some ()) 0
      = (⟨[], false⟩, ⟨10, [(0, 7)]⟩) ∧
    (⟨10, [(0, 7)]⟩ : LRUCache ℕ ℕ) ≠ ⟨10, []⟩ :=
  ⟨rfl, by simp⟩

/-- C5 (amended): when a collaborator raises, `predict_shapes` returns the
empty result (no shapes, no replacement) instead of propagating; when the
encode itself failed the cache is left exactly as it was (the failed
filename is never inserted); whether the decode fails on a cached or a
freshly encoded embedding, the result is still the empty result (though a
successful fresh encode stays cached). -/
theorem predict_shapes_failure_recovery :
    ∀ (K Img Emb M S E : Type) (inst : DecidableEq K)
      (encode : Img → Except E Emb) (decode : Emb → List Mark → Except E M)
      (post : M → List S) (marks : List Mark) (cache : LRUCache K Emb)
      (img : Img) (filename : K),
      marks ≠ [] →
      ((∀ e, encode img = .error e → (cache.get filename).1 = none →
        predict_shapes encode decode post false marks cache (some img) filename
          = (⟨[], false⟩, cache)) ∧
       (∀ emb, encode img = .ok emb → (cache.get filename).1 = none →
        (∀ m, decode emb marks ≠ .ok m) →
        (predict_shapes encode decode post false marks cache (some img) filename).1
          = ⟨[], false⟩) ∧
       (∀ emb cache', cache.get filename = (some emb, cache') →
        (∀ m, decode emb marks ≠ .ok m) →
        (predict_shapes encode decode post false marks cache (some img) filename).1
          = ⟨[], false⟩)) := by
  intro K Img Emb M S E inst encode decode post marks cache img filename hmk
  have hne : marks.isEmpty = false := by
    cases marks with
    | nil => exact absurd rfl hmk
    | cons a l => rfl
  refine ⟨?_, ?_, ?_⟩
  · intro e he hmiss
    have hg := LRUCache.get_miss cache filename hmiss
    simp [predict_shapes, hne, hg, he]
  · intro emb hok hmiss hdec
    have hg := LRUCache.get_miss cache filename hmiss
    simp only [predict_shapes, hne, hg, hok, Bool.false_eq_true, if_false]
    cases hd : decode emb marks with
    | error e => simp [hd]
    | ok m => exact absurd hd (hdec m)
  · intro emb cache' hget hdec
    simp only [predict_shapes, hne, hget, Bool.false_eq_true, if_false]
    cases hd : decode emb marks with
    | error e => simp [hd]
    | ok m => exact absurd hd (hdec m)

/-- Witness for C5 (amended): a failing encode on an empty cache returns
the empty result and the cache exactly as before. -/
theorem predict_shapes_failure_recovery_witness :
    ([Mark.point (0, 0) 1] : List Mark) ≠ [] ∧
    @predict_shapes ℕ Unit ℕ Unit Unit Unit _
        (fun _ => (.error () : Except Unit ℕ)) (fun _ _ => .ok ())
        (fun _ => [()]) false [Mark.point (0, 0) 1] ⟨10, []⟩ (some ()) 0
      = (⟨[], false⟩, ⟨10, []⟩) :=
  ⟨by simp,
   (predict_shapes_failure_recovery ℕ Unit ℕ Unit Unit Unit inferInstance
      (fun _ => (.error () : Except Unit ℕ)) (fun _ _ => .ok ())
      (fun _ => [()]) [Mark.point (0, 0) 1] ⟨10, []⟩ () 0 (by simp)).1
     () rfl rfl⟩

/-- C9 counterexample: on an all-background mask (empty union) the scorer
computes numpy's `0/0`, which is NaN (modelled `none`), not the score 0
the claim promises. -/
theorem stability_score_empty_union_nan :
    stability_score_mask [[(-5 : ℚ)]] 0 1 = none ∧
    (none : Option ℚ) ≠ some 0 :=
  ⟨by norm_num [stability_score_mask, unions, grid_or, grid_sum, high_threshold_mask,
      low_threshold_mask, List.countP_cons, List.countP_nil], by simp⟩

/-- C9 (amended): the scorer has no divide-by-zero guard: whenever the
union is empty the division `0/0` yields NaN (modelled `none`) for that
mask; numpy does not raise, so the call still does not crash. -/
theorem stability_score_empty_union_none :
    ∀ (m : Mask) (mask_threshold threshold_offset : ℚ),
      unions m mask_threshold threshold_offset = 0 →
      stability_score_mask m mask_threshold threshold_offset = none := by
  intro m t d h
  simp [stability_score_mask, h]

/-- Zipping the pointwise images of one row and combining with `&&`
computes the pointwise conjunction. -/
theorem row_zip_and (f g : ℚ → Bool) :
    ∀ row : List ℚ,
      ((row.map f).zip (row.map g)).map (fun pq => pq.1 && pq.2) =
        row.map (fun p => f p && g p) := by
  intro row
  induction row with
  | nil => rfl
  | cons p ps ih => simp [ih]

/-- Zipping the pointwise images of one row and combining with `||`
computes the pointwise disjunction. -/
theorem row_zip_or (f g : ℚ → Bool) :
    ∀ row : List ℚ,
      ((row.map f).zip (row.map g)).map (fun pq => pq.1 || pq.2) =
        row.map (fun p => f p || g p) := by
  intro row
  induction row with
  | nil => rfl
  | cons p ps ih => simp [ih]

/-- `grid_and` of two pointwise threshold grids of the same mask is the
grid of the pointwise conjunction. -/
theorem grid_and_map (f g : ℚ → Bool) :
    ∀ m : Mask,
      grid_and (m.map (fun row => row.map f)) (m.map (fun row => row.map g)) =
        m.map (fun row => row.map (fun p => f p && g p)) := by
  intro m
  induction m with
  | nil => rfl
  | cons row rest ih => simpa [grid_and, row_zip_and f g row] using ih

/-- `grid_or` of two pointwise threshold grids of the same mask is the
grid of the pointwise disjunction. -/
theorem grid_or_map (f g : ℚ → Bool) :
    ∀ m : Mask,
      grid_or (m.map (fun row => row.map f)) (m.map (fun row => row.map g)) =
        m.map (fun row => row.map (fun p => f p || g p)) := by
  intro m
  induction m with
  | nil => rfl
  | cons row rest ih => simpa [grid_or, row_zip_or f g row] using ih

/-- Summing a pointwise boolean grid over both axes counts the pixels
satisfying the predicate. -/
theorem grid_sum_map_count (f : ℚ → Bool) :
    ∀ m : Mask, grid_sum (m.map (fun row => row.map f)) = m.flatten.countP f := by
  intro m
  induction m with
  | nil => rfl
  | cons row rest ih =>
    simp [grid_sum, List.countP_append, List.countP_map, Function.comp] at ih ⊢
    omega

/-- The `intersections` count is the number of pixels above both
thresholds. -/
theorem intersections_eq (m : Mask) (t d : ℚ) :
    intersections m t d =
      m.flatten.countP (fun p => decide (t + d < p) && decide (t - d < p)) := by
  unfold intersections high_threshold_mask low_threshold_mask
  rw [grid_and_map, grid_sum_map_count]

/-- The `unions` count is the number of pixels above either threshold. -/
theorem unions_eq (m : Mask) (t d : ℚ) :
    unions m t d =
      m.flatten.countP (fun p => decide (t + d < p) || decide (t - d < p)) := by
  unfold unions high_threshold_mask low_threshold_mask
  rw [grid_or_map, grid_sum_map_count]

/-- `grid_and` of a grid with itself is the grid. -/
theorem grid_and_self : ∀ g : List (List Bool), grid_and g g = g := by
  intro g
  induction g with
  | nil => rfl
  | cons row rest ih =>
    have hrow : (row.zip row).map (fun pq => pq.1 && pq.2) = row := by
      induction row with
      | nil => rfl
      | cons b bs ihb => simp [ihb]
    simpa [grid_and, hrow] using ih

/-- `grid_or` of a grid with itself is the grid. -/
theorem grid_or_self : ∀ g : List (List Bool), grid_or g g = g := by
  intro g
  induction g with
  | nil => rfl
  | cons row rest ih =>
    have hrow : (row.zip row).map (fun pq => pq.1 || pq.2) = row := by
      induction row with
      | nil => rfl
      | cons b bs ihb => simp [ihb]
    simpa [grid_or, hrow] using ih

/-- Counting with a pointwise weaker predicate counts at least as much. -/
theorem countP_le_countP {α : Type} {p q : α → Bool}
    (h : ∀ a, p a = true → q a = true) :
    ∀ l : List α, l.countP p ≤ l.countP q := by
  intro l
  induction l with
  | nil => exact Nat.le_refl 0
  | cons a l ih =>
    rw [List.countP_cons, List.countP_cons]
    by_cases hp : p a = true
    · simp [hp, h a hp]; omega
    · have : p a = false := by simpa using hp
      simp [this]; omega

/-- The code's per-mask score agrees with the spec's set formulation. -/
theorem stability_score_mask_eq_spec (m : Mask) (t d : ℚ) :
    stability_score_mask m t d = spec_stability_score m t d := by
  unfold stability_score_mask spec_stability_score
  rw [intersections_eq, unions_eq, List.countP_eq_length_filter,
    List.countP_eq_length_filter]

/-- C1: with threshold 0.0 and offset 1.0 the stability scorer returns,
per mask, the cardinality of the pixel set {pixels > 1.0} ∩ {pixels > -1.0}
divided by the cardinality of their union (reduced over the two spatial
axes); and for every mask whose high- and low-threshold binary masks are
equal and non-empty, the score is exactly 1.0. -/
theorem calculate_stability_score_spec :
    ∀ masks : List Mask,
      calculate_stability_score masks 0 1 =
        masks.map (fun m => spec_stability_score m 0 1) ∧
      ∀ m : Mask, high_threshold_mask m 0 1 = low_threshold_mask m 0 1 →
        unions m 0 1 ≠ 0 → stability_score_mask m 0 1 = some 1 := by
  intro masks
  constructor
  · unfold calculate_stability_score
    exact List.map_congr_left (fun m _ => stability_score_mask_eq_spec m 0 1)
  · intro m hm hu
    have hi : intersections m 0 1 = unions m 0 1 := by
      unfold intersections unions
      rw [hm, grid_and_self, grid_or_self]
    unfold stability_score_mask
    rw [if_neg hu, hi, div_self (by exact_mod_cast hu)]

/-- Witness for C1 on the 1×1 mask [[2]]: both threshold masks are
[[true]] and the score is 1. -/
theorem calculate_stability_score_spec_witness :
    high_threshold_mask [[(2 : ℚ)]] 0 1 = low_threshold_mask [[(2 : ℚ)]] 0 1 ∧
    unions [[(2 : ℚ)]] 0 1 ≠ 0 ∧
    stability_score_mask [[(2 : ℚ)]] 0 1 = some 1 :=
  ⟨by norm_num [high_threshold_mask, low_threshold_mask],
   by norm_num [unions, grid_or, grid_sum, high_threshold_mask, low_threshold_mask,
      List.countP_cons, List.countP_nil],
   (calculate_stability_score_spec [[[(2 : ℚ)]]]).2 [[(2 : ℚ)]]
     (by norm_num [high_threshold_mask, low_threshold_mask])
     (by norm_num [unions, grid_or, grid_sum, high_threshold_mask, low_threshold_mask,
        List.countP_cons, List.countP_nil])⟩

/-- C10: for a non-negative offset the high-threshold set is contained in
the low-threshold set, so the intersection count equals the high-threshold
count, the numerator never exceeds the denominator, and a non-empty union
gives a score in [0, 1]. -/
theorem stability_score_bounds :
    ∀ (m : Mask) (mask_threshold threshold_offset : ℚ),
      0 ≤ threshold_offset →
      intersections m mask_threshold threshold_offset =
        grid_sum (high_threshold_mask m mask_threshold threshold_offset) ∧
      intersections m mask_threshold threshold_offset ≤
        unions m mask_threshold threshold_offset ∧
      (unions m mask_threshold threshold_offset ≠ 0 →
        ∃ s, stability_score_mask m mask_threshold threshold_offset = some s ∧
          0 ≤ s ∧ s ≤ 1) := by
  intro m t d hd
  have key : ∀ p : ℚ,
      (decide (t + d < p) && decide (t - d < p)) = decide (t + d < p) := by
    intro p
    by_cases hp : t + d < p
    · have hlow : t - d < p := lt_of_le_of_lt (by linarith) hp
      simp [hp, hlow]
    · simp [hp]
  have hhigh : grid_sum (high_threshold_mask m t d) =
      m.flatten.countP (fun p => decide (t + d < p)) := by
    unfold high_threshold_mask
    exact grid_sum_map_count _ m
  have hi : intersections m t d =
      m.flatten.countP (fun p => decide (t + d < p)) := by
    rw [intersections_eq]
    simp only [key]
  have hle : intersections m t d ≤ unions m t d := by
    rw [intersections_eq, unions_eq]
    exact countP_le_countP
      (fun a ha => by
        simp only [Bool.and_eq_true] at ha
        simp [ha.1]) m.flatten
  refine ⟨hi.trans hhigh.symm, hle, fun hu => ?_⟩
  refine ⟨(intersections m t d : ℚ) / (unions m t d : ℚ), ?_, ?_, ?_⟩
  · unfold stability_score_mask
    rw [if_neg hu]
  · positivity
  · rw [div_le_one (by exact_mod_cast Nat.pos_of_ne_zero hu)]
    exact_mod_cast hle

/-- Witness for C10 on the mask [[2, -5, 0]] with threshold 0 and offset 1:
intersection count 1, union count 2, score 1/2. -/
theorem stability_score_bounds_witness :
    (0 : ℚ) ≤ 1 ∧ unions [[(2 : ℚ), -5, 0]] 0 1 ≠ 0 ∧
    ∃ s, stability_score_mask [[(2 : ℚ), -5, 0]] 0 1 = some s ∧ 0 ≤ s ∧ s ≤ 1 :=
  ⟨by norm_num, by norm_num [unions, grid_or, grid_sum, high_threshold_mask,
      low_threshold_mask, List.countP_cons, List.countP_nil],
   (stability_score_bounds [[(2 : ℚ), -5, 0]] 0 1 (by norm_num)).2.2
     (by norm_num [unions, grid_or, grid_sum, high_threshold_mask,
        low_threshold_mask, List.countP_cons, List.countP_nil])⟩

/-- Witness for C9 (amended) on a 1×1 all-background mask. -/
theorem stability_score_empty_union_none_witness :
    unions [[(-5 : ℚ)]] 0 1 = 0 ∧ stability_score_mask [[(-5 : ℚ)]] 0 1 = none :=
  ⟨by norm_num [unions, grid_or, grid_sum, high_threshold_mask, low_threshold_mask,
      List.countP_cons, List.countP_nil],
   stability_score_empty_union_none [[(-5 : ℚ)]] 0 1
     (by norm_num [unions, grid_or, grid_sum, high_threshold_mask, low_threshold_mask,
        List.countP_cons, List.countP_nil])⟩
